import Mathlib

/-
Verification of the Dynamic Risk-Weighted Route Engine.

Shallow embedding of the JavaScript sources:
  * backend/core/route-engine.js (class RouteCalculationEngine)
  * backend/server.js            (class EarthquakeEvacuationServer)
  * backend/services/usgs-api.js (getRecentEarthquakes)

Modelling conventions:
  * All JavaScript numbers are modelled as exact rationals.
  * turf.distance (great-circle distance) and Math.log10 are transcendental,
    so they are passed as explicit function parameters (GeoDist, Log10).
    turf points are (lng, lat) pairs, mirroring turf.point([lng, lat]).
    turf kilometers are the base unit; turf meters are 1000 times kilometers.
  * The mutable JavaScript engine object is threaded as an explicit Engine
    value; methods that mutate this.cityGraph return the updated Engine.
  * The JS cityGraph is a single Map holding node entries (type 'node', keyed
    by node id) and edge entries (keyed by the string fromId-dashed-toId).
    We split it into the lists nodes and edges.  The updateEdgeWeights loop
    also visits node entries, but there it only writes a weight property that
    no other code reads, so the split preserves every observable behaviour.
  * A thrown JS Error is modelled as Except.error with a JsErr tag.
-/

/- Lean marks the core rational-number operations irreducible, which blocks
the evaluation of concrete program runs inside decide; restoring the default
transparency (a purely elaboration-side setting, checked by the kernel as
usual) lets the fixtures below evaluate. -/
set_option allowUnsafeReducibility true

attribute [semireducible] Rat.mul Rat.inv Rat.blt Rat.add Rat.sub Rat.neg
  Rat.div Rat.normalize Rat.ofScientific Rat.ceil Rat.floor

/-- Great-circle distance oracle: turf.distance on two (lng, lat) points,
in kilometers. -/
def GeoDist : Type := (ℚ × ℚ) → (ℚ × ℚ) → ℚ

/-- Math.log10 oracle. -/
def Log10 : Type := ℚ → ℚ

structure Coord where
  lat : ℚ
  lng : ℚ
deriving DecidableEq, Repr

structure GraphNode where
  id : String
  lat : ℚ
  lng : ℚ
  neighbors : List String
deriving DecidableEq, Repr

structure GraphEdge where
  id : String
  startLat : ℚ
  startLng : ℚ
  baseDistance : ℚ
  weight : ℚ
deriving DecidableEq, Repr

structure SafeZone where
  id : String
  lat : ℚ
  lng : ℚ
deriving DecidableEq, Repr

structure Hazard where
  type : String
deriving DecidableEq, Repr

/-- One USGS GeoJSON feature: geometry.coordinates is [lng, lat, depth],
properties carries mag and time. -/
structure EqEvent where
  lng : ℚ
  lat : ℚ
  depth : ℚ
  mag : ℚ
  time : ℤ
deriving DecidableEq, Repr

/-- A seismic snapshot object; its features field may be absent. -/
structure SeismicData where
  features : Option (List EqEvent)
deriving DecidableEq, Repr

structure StructuralData where
  averageAge : ℚ
  constructionType : String
  previousDamage : Bool
deriving DecidableEq, Repr

def HazardMap : Type := List (String × List Hazard)

/-- The RouteCalculationEngine instance state (its mutable maps). -/
structure Engine where
  nodes : List GraphNode
  edges : List GraphEdge
  safeZones : List SafeZone
  hazardMap : List (String × List Hazard)
  crowdDensityMap : List (String × ℚ)
  structuralRiskMap : List (String × StructuralData)
  seismicData : Option SeismicData
deriving DecidableEq, Repr

/-- JS Map.get: first (unique) entry under the key. -/
def lookupA {α : Type} : List (String × α) → String → Option α
  | [], _ => none
  | p :: rest, k => if p.1 == k then some p.2 else lookupA rest k

instance instDecidableEqExcept {e a : Type} [DecidableEq e] [DecidableEq a] :
    DecidableEq (Except e a) := fun x y =>
  match x, y with
  | .error a1, .error a2 =>
    match decEq a1 a2 with
    | isTrue h => isTrue (congrArg Except.error h)
    | isFalse h => isFalse (fun hc => h (Except.error.inj hc))
  | .error _, .ok _ => isFalse (fun hc => Except.noConfusion hc)
  | .ok _, .error _ => isFalse (fun hc => Except.noConfusion hc)
  | .ok a1, .ok a2 =>
    match decEq a1 a2 with
    | isTrue h => isTrue (congrArg Except.ok h)
    | isFalse h => isFalse (fun hc => h (Except.ok.inj hc))

inductive JsErr where
  | noSafeZoneAvailable
  | noPathFound
  | typeError
  | fuelExhausted
deriving DecidableEq, Repr

/-- calculateShindoIntensity(magnitude, distance, depth). -/
def calculateShindoIntensity (lg : Log10) (magnitude distance depth : ℚ) : ℚ :=
  let attenuationFactor := lg (distance + depth)
  let intensity := magnitude - 3.0 * attenuationFactor + 3.0
  max 0 (min 7 intensity)

/-- calculateSeismicRisk(edge, seismicData).  A null/undefined snapshot or a
snapshot without a features field yields the fixed default 0.1; otherwise the
maximum normalized intensity over all events (0 for an empty event list). -/
def calculateSeismicRisk (dist : GeoDist) (lg : Log10) (edge : GraphEdge)
    (seismicData : Option SeismicData) : ℚ :=
  match seismicData with
  | none => 0.1
  | some sd =>
    match sd.features with
    | none => 0.1
    | some features =>
      features.foldl (fun maxRisk eq =>
        let distance := dist (edge.startLng, edge.startLat) (eq.lng, eq.lat)
        let intensity := calculateShindoIntensity lg eq.mag distance eq.depth
        let risk := min (intensity / 7.0) 1.0
        max maxRisk risk) 0

/-- calculateStructuralRisk(edge). -/
def calculateStructuralRisk (structuralRiskMap : List (String × StructuralData))
    (edge : GraphEdge) : ℚ :=
  match lookupA structuralRiskMap edge.id with
  | none => 0.2
  | some structuralData =>
    let ageRisk : ℚ := if structuralData.averageAge > 50 then 0.7 else 0.3
    let constructionRisk : ℚ :=
      if structuralData.constructionType = "unreinforced_masonry" then 0.9 else 0.2
    let damageRisk : ℚ := if structuralData.previousDamage then 0.8 else 0.1
    min ((ageRisk + constructionRisk + damageRisk) / 3) 1.0

/-- getCrowdDensity(edge). -/
def getCrowdDensity (crowdDensityMap : List (String × ℚ)) (edge : GraphEdge) : ℚ :=
  let density := (lookupA crowdDensityMap edge.id).getD 0
  min (density / 1000.0) 1.0

/-- The switch over hazard.type in getHazardReports. -/
def hazardScore (t : String) : ℚ :=
  if t = "building_collapse" then 0.9
  else if t = "fire" then 0.7
  else if t = "debris" then 0.5
  else if t = "gas_leak" then 0.8
  else 0.3

/-- getHazardReports(edge). -/
def getHazardReports (hazardMap : List (String × List Hazard)) (edge : GraphEdge) : ℚ :=
  let hazards := (lookupA hazardMap edge.id).getD []
  let riskScore := hazards.foldl (fun acc h => acc + hazardScore h.type) 0
  min riskScore 1.0

/-- The body of the updateEdgeWeights loop for one edge entry: the JS code
assigns edge.weight the weighted blend, then adds the distance term, then
multiplies the whole stored weight by 3 on extreme risk. -/
def updateEdgeWeight (dist : GeoDist) (lg : Log10) (e : Engine) (edge : GraphEdge) :
    GraphEdge :=
  let seismicRisk := calculateSeismicRisk dist lg edge e.seismicData
  let structuralRisk := calculateStructuralRisk e.structuralRiskMap edge
  let crowdDensity := getCrowdDensity e.crowdDensityMap edge
  let hazardReports := getHazardReports e.hazardMap edge
  let w1 : ℚ := 0.4 * seismicRisk + 0.3 * structuralRisk +
    0.2 * crowdDensity + 0.1 * hazardReports
  let w2 := w1 + edge.baseDistance * 0.1
  let w3 := if seismicRisk > 0.8 ∨ structuralRisk > 0.9 then w2 * 3.0 else w2
  { edge with weight := w3 }

/-- updateEdgeWeights(graph): recompute (overwrite) the weight of every edge
entry of the shared cityGraph from the current inputs. -/
def updateEdgeWeights (dist : GeoDist) (lg : Log10) (e : Engine) : List GraphEdge :=
  e.edges.map (updateEdgeWeight dist lg e)

/-- getNode(nodeId): cityGraph.get on a node key. -/
def getNode (e : Engine) (nodeId : String) : Option GraphNode :=
  e.nodes.find? (fun n => n.id == nodeId)

/-- The string key fromId-dashed-toId used for edge entries. -/
def edgeKey (fromId toId : String) : String :=
  fromId ++ "-" ++ toId

/-- getEdge(fromId, toId): forward key first, then the reversed key. -/
def getEdge (e : Engine) (fromId toId : String) : Option GraphEdge :=
  match e.edges.find? (fun ed => ed.id == edgeKey fromId toId) with
  | some ed => some ed
  | none => e.edges.find? (fun ed => ed.id == edgeKey toId fromId)

/-- heuristic(nodeA, nodeB): great-circle distance between the two nodes. -/
def heuristic (dist : GeoDist) (nodeA nodeB : GraphNode) : ℚ :=
  dist (nodeA.lng, nodeA.lat) (nodeB.lng, nodeB.lat)

/-- findNearestNode(location): linear scan keeping the first strict minimum
(distance measured in turf meters). -/
def findNearestNode (e : Engine) (dist : GeoDist) (location : Coord) :
    Option GraphNode :=
  (e.nodes.foldl (fun best node =>
    let d := 1000 * dist (location.lng, location.lat) (node.lng, node.lat)
    match best with
    | none => some (node, d)
    | some (bn, bd) => if d < bd then some (node, d) else some (bn, bd)) none).map
    (fun p => p.1)

/-- findNearestSafeZone(userLocation): linear scan keeping the first strict
minimum (kilometers). -/
def findNearestSafeZone (e : Engine) (dist : GeoDist) (userLocation : Coord) :
    Option SafeZone :=
  (e.safeZones.foldl (fun best safeZone =>
    let d := dist (userLocation.lng, userLocation.lat) (safeZone.lng, safeZone.lat)
    match best with
    | none => some (safeZone, d)
    | some (bz, bd) => if d < bd then some (safeZone, d) else some (bz, bd)) none).map
    (fun p => p.1)

/-- An entry of the A* open set: the node object together with the fScore it
was pushed with.  The npm heap package never re-prioritizes an entry, so the
stored fScore can be stale. -/
structure OpenItem where
  node : GraphNode
  fScore : ℚ
deriving DecidableEq, Repr

/-- The open set is modelled as a list kept sorted by fScore via stable
insertion; popping the head pops a minimum-fScore entry, which is what the
npm binary min-heap does (among equal priorities the heap's choice is
unspecified; every theorem below that depends on pop order uses strictly
distinct priorities). -/
def pushOpen (it : OpenItem) : List OpenItem → List OpenItem
  | [] => [it]
  | x :: xs => if it.fScore < x.fScore then it :: x :: xs else x :: pushOpen it xs

/-- Functional update of a JS Map modelled as an association list. -/
def setA {α : Type} (m : List (String × α)) (k : String) (v : α) :
    List (String × α) :=
  match m with
  | [] => [(k, v)]
  | p :: rest => if p.1 == k then (k, v) :: rest else p :: setA rest k v

/-- reconstructPath's while loop.  The fuel bounds the cameFrom chain length;
on a cyclic cameFrom (where the JS loop would not terminate) the result is
truncated.  A getNode miss stops the walk (the JS code would throw on the
following iteration); no theorem below depends on either degenerate case. -/
def reconstructPathAux (e : Engine) (cameFrom : List (String × String)) :
    Nat → GraphNode → List GraphNode → List GraphNode
  | 0, _, path => path
  | fuel + 1, current, path =>
    match lookupA cameFrom current.id with
    | none => path
    | some prevId =>
      match getNode e prevId with
      | none => path
      | some prev => reconstructPathAux e cameFrom fuel prev (prev :: path)

/-- reconstructPath(cameFrom, current). -/
def reconstructPath (e : Engine) (cameFrom : List (String × String))
    (current : GraphNode) : List GraphNode :=
  reconstructPathAux e cameFrom (cameFrom.length + 1) current [current]

/-- The loop state of the A* search: the open set, the gScore and fScore
maps, and the cameFrom map. -/
def AStarState : Type :=
  List OpenItem × List (String × ℚ) × List (String × ℚ) × List (String × String)

/-- One iteration of the for-loop over current.neighbors in aStarAlgorithm.
In the source a missing node or edge entry surfaces as a TypeError when it is
dereferenced (edge.weight, neighbor.lng), and a missing gScore entry would
propagate NaN; here all three lookups are required up front and any miss is
reported as typeError.  Every state reached by the theorems below keeps the
graph well formed, so the conflation is unobservable there. -/
def relaxOne (e : Engine) (dist : GeoDist) (goalNode current : GraphNode)
    (closedSet : Finset String) (st : AStarState) (neighborId : String) :
    Except JsErr AStarState :=
  if neighborId ∈ closedSet then .ok st
  else
    match getNode e neighborId, getEdge e current.id neighborId,
        lookupA st.2.1 current.id with
    | some neighbor, some edge, some gCur =>
      let tentativeGScore := gCur + edge.weight
      let improves :=
        match lookupA st.2.1 neighborId with
        | none => true
        | some gOld => decide (tentativeGScore < gOld)
      if improves then
        let cameFrom1 := setA st.2.2.2 neighborId current.id
        let gScore1 := setA st.2.1 neighborId tentativeGScore
        let fNew := tentativeGScore + heuristic dist neighbor goalNode
        let fScore1 := setA st.2.2.1 neighborId fNew
        let openSet1 :=
          if st.1.any (fun it => it.node.id == neighborId) then st.1
          else pushOpen ⟨neighbor, fNew⟩ st.1
        .ok (openSet1, gScore1, fScore1, cameFrom1)
      else .ok st
    | _, _, _ => .error .typeError

/-- The whole for-loop over current.neighbors: fold relaxOne left to right,
stopping at the first thrown error. -/
def relaxNeighbors (e : Engine) (dist : GeoDist) (goalNode current : GraphNode)
    (closedSet : Finset String) :
    List String → AStarState → Except JsErr AStarState
  | [], st => .ok st
  | neighborId :: rest, st =>
    match relaxOne e dist goalNode current closedSet st neighborId with
    | .ok st1 => relaxNeighbors e dist goalNode current closedSet rest st1
    | .error err => .error err

/-- The while loop of aStarAlgorithm.  Each iteration pops the minimum-fScore
entry, returns on reaching the goal, settles the popped node into the closed
set, and relaxes its neighbors.  The fuel is an upper bound on the number of
iterations; aStarAlgorithm supplies one more than the number of graph nodes,
which is proved sufficient below. -/
def aStarAux (e : Engine) (dist : GeoDist) (goalNode : GraphNode) :
    Nat → List OpenItem → Finset String → List (String × ℚ) →
    List (String × ℚ) → List (String × String) → Except JsErr (List GraphNode)
  | 0, _, _, _, _, _ => .error .fuelExhausted
  | _ + 1, [], _, _, _, _ => .error .noPathFound
  | fuel + 1, item :: rest, closedSet, gScore, fScore, cameFrom =>
    if item.node.id = goalNode.id then
      .ok (reconstructPath e cameFrom item.node)
    else
      let closedSet1 := insert item.node.id closedSet
      match relaxNeighbors e dist goalNode item.node closedSet1 item.node.neighbors
          (rest, gScore, fScore, cameFrom) with
      | .error err => .error err
      | .ok st1 =>
        aStarAux e dist goalNode fuel st1.1 closedSet1 st1.2.1 st1.2.2.1 st1.2.2.2

/-- aStarAlgorithm(start, goal, graph).  The graph argument of the JS method
is always this.cityGraph (all lookups inside go through this.getNode and
this.getEdge), so the Engine value stands for both.  A missing start or goal
node is a TypeError in the source (null.id). -/
def aStarAlgorithm (e : Engine) (dist : GeoDist) (start goal : Coord) :
    Except JsErr (List GraphNode) :=
  match findNearestNode e dist start, findNearestNode e dist goal with
  | some startNode, some goalNode =>
    let h0 := heuristic dist startNode goalNode
    aStarAux e dist goalNode (e.nodes.length + 1) [⟨startNode, h0⟩] ∅
      [(startNode.id, 0)] [(startNode.id, h0)] []
  | _, _ => .error .typeError

/-- Consecutive pairs of a route. -/
def routePairs (route : List GraphNode) : List (GraphNode × GraphNode) :=
  route.zip route.tail

/-- calculateEstimatedTime(route): geodesic meters at 1.4 m/s, whole minutes
rounded up. -/
def calculateEstimatedTime (dist : GeoDist) (route : List GraphNode) : ℤ :=
  let walkingSpeed : ℚ := 1.4
  let totalTime := (routePairs route).foldl
    (fun acc p =>
      acc + 1000 * dist (p.1.lng, p.1.lat) (p.2.lng, p.2.lat) / walkingSpeed) 0
  ⌈totalTime / 60⌉

/-- calculateRouteRiskLevel(route): mean weight of the route's edges (forward
keys only, straight cityGraph.get), bucketed; 0.5 when no segment resolves. -/
def calculateRouteRiskLevel (e : Engine) (route : List GraphNode) : String :=
  let acc := (routePairs route).foldl
    (fun (acc : ℚ × ℕ) p =>
      match e.edges.find? (fun ed => ed.id == edgeKey p.1.id p.2.id) with
      | some ed => (acc.1 + ed.weight, acc.2 + 1)
      | none => acc) (0, 0)
  let averageRisk : ℚ := if acc.2 > 0 then acc.1 / (acc.2 : ℚ) else 0.5
  if averageRisk < 0.3 then "LOW"
  else if averageRisk < 0.6 then "MODERATE"
  else if averageRisk < 0.8 then "HIGH"
  else "CRITICAL"

/-- Double the stored weight of the edge entry under the given forward key
(shared-graph mutation). -/
def penalizeEdge (edges : List GraphEdge) (key : String) : List GraphEdge :=
  edges.map (fun ed => if ed.id = key then { ed with weight := ed.weight * 2.0 } else ed)

/-- penalizePreviousRoutes(graph, routes): double the weight of every edge
used by the given routes, writing into the shared edge entries. -/
def penalizePreviousRoutes (edges : List GraphEdge)
    (routes : List (List GraphNode)) : List GraphEdge :=
  routes.foldl (fun es route =>
    (routePairs route).foldl (fun es2 p => penalizeEdge es2 (edgeKey p.1.id p.2.id)) es)
    edges

/-- The for-loop of generateAlternativeRoutes: penalize the primary route and
all alternatives found so far on the shared graph, re-run the search, and stop
at the first failure (the catch swallows any error).  The penalties applied
before a failing search remain in the shared graph. -/
def altLoop (dist : GeoDist) (start goal : Coord) (primary : List GraphNode) :
    Nat → Engine → List (List GraphNode) → Engine × List (List GraphNode)
  | 0, e, alternatives => (e, alternatives)
  | k + 1, e, alternatives =>
    let e1 := { e with edges := penalizePreviousRoutes e.edges (primary :: alternatives) }
    match aStarAlgorithm e1 dist start goal with
    | .ok altRoute => altLoop dist start goal primary k e1 (alternatives ++ [altRoute])
    | .error _ => (e1, alternatives)

/-- generateAlternativeRoutes(start, goal, graph, count = 2).  The initial
primary-route search is outside the try, so its failure propagates. -/
def generateAlternativeRoutes (e : Engine) (dist : GeoDist) (start goal : Coord)
    (count : Nat) : Except JsErr (List (List GraphNode)) × Engine :=
  match aStarAlgorithm e dist start goal with
  | .error err => (.error err, e)
  | .ok primaryRoute =>
    let r := altLoop dist start goal primaryRoute count e []
    (.ok r.2, r.1)

structure RouteResult where
  route : List GraphNode
  estimatedTime : ℤ
  riskLevel : String
  alternativeRoutes : List (List GraphNode)
deriving DecidableEq, Repr

/-- Everything calculateSafeRoute does after this.cityGraph has been
re-weighted: pick the nearest safe zone, run A*, and assemble the result
object (its fields are evaluated in source order, so the risk level is read
before the alternative-route penalties mutate the shared weights). -/
def calculateSafeRouteCore (e : Engine) (dist : GeoDist) (userLocation : Coord) :
    Except JsErr RouteResult × Engine :=
  match findNearestSafeZone e dist userLocation with
  | none => (.error .noSafeZoneAvailable, e)
  | some targetSafeZone =>
    let goal : Coord := ⟨targetSafeZone.lat, targetSafeZone.lng⟩
    match aStarAlgorithm e dist userLocation goal with
    | .error err => (.error err, e)
    | .ok route =>
      let estimatedTime := calculateEstimatedTime dist route
      let riskLevel := calculateRouteRiskLevel e route
      let alt := generateAlternativeRoutes e dist userLocation goal 2
      match alt.1 with
      | .error err => (.error err, alt.2)
      | .ok alternativeRoutes =>
        (.ok ⟨route, estimatedTime, riskLevel, alternativeRoutes⟩, alt.2)

/-- calculateSafeRoute(userLocation, seismicData, hazardMap): store the two
snapshots on the engine, overwrite every shared edge weight from the current
inputs, then search. -/
def calculateSafeRoute (e : Engine) (dist : GeoDist) (lg : Log10)
    (userLocation : Coord) (seismicData : Option SeismicData)
    (hazardMap : List (String × List Hazard)) : Except JsErr RouteResult × Engine :=
  let st1 := { e with seismicData := seismicData, hazardMap := hazardMap }
  let st2 := { st1 with edges := updateEdgeWeights dist lg st1 }
  calculateSafeRouteCore st2 dist userLocation

/- ===================== server.js (session manager) ===================== -/

def reasonEarthquakeActivity : String := "earthquake_activity"

structure Session where
  id : String
  startLocation : Coord
  currentLocation : Coord
  route : RouteResult
  startTime : ℤ
  lastUpdate : ℤ
  status : String
deriving DecidableEq, Repr

/-- The server fields the session logic reads: the engine, the cached USGS
snapshot, the current hazard map, and the clock (Date.now() in ms). -/
structure ServerState where
  engine : Engine
  usgsCache : Option SeismicData
  currentHazards : List (String × List Hazard)
  nowMs : ℤ
deriving DecidableEq, Repr

/-- usgs-api.js getRecentEarthquakes(hoursBack): cached features no older
than hoursBack hours (cached USGS collections always carry a features array;
an absent one is read as empty here). -/
def getRecentEarthquakes (srv : ServerState) (hoursBack : ℤ) : List EqEvent :=
  match srv.usgsCache with
  | none => []
  | some data =>
    let cutoffTime := srv.nowMs - hoursBack * 3600000
    (data.features.getD []).filter (fun f => decide (cutoffTime ≤ f.time))

/-- server.js:425 invokes this.routeEngine.checkRouteForHazards, but class
RouteCalculationEngine (route-engine.js) defines no such method anywhere in
the repository: the property access yields undefined, and calling it throws
a TypeError.  The absent method is modelled as none. -/
def RouteCalculationEngine.checkRouteForHazards :
    Option (List GraphNode → List (String × List Hazard) → Bool) := none

/-- checkRouteRecalculation(session), server.js:422-437.  The some branch
spells out what the source would compute if the engine method existed; the
none branch is what actually happens. -/
def checkRouteRecalculation (srv : ServerState) (session : Session) :
    Except JsErr Bool :=
  match RouteCalculationEngine.checkRouteForHazards with
  | none => .error .typeError
  | some check =>
    let routeHasNewHazards := check session.route.route srv.currentHazards
    let recentEarthquakes := getRecentEarthquakes srv 1
    let hasSignificantActivity := recentEarthquakes.any (fun eq => decide (eq.mag ≥ 5.0))
    .ok (routeHasNewHazards || hasSignificantActivity)

/-- The POST /api/route/update/:sessionId handler, server.js:136-189, for a
found session: the session's location and lastUpdate are mutated first; a
throw from checkRouteRecalculation is caught by the handler's outer catch and
answered with a 500 error, leaving the route untouched. -/
def routeUpdateHandler (srv : ServerState) (dist : GeoDist) (lg : Log10)
    (session : Session) (currentLocation : Coord) :
    ServerState × Session × Except JsErr RouteResult :=
  let s1 := { session with currentLocation := currentLocation, lastUpdate := srv.nowMs }
  match checkRouteRecalculation srv s1 with
  | .error err => (srv, s1, .error err)
  | .ok true =>
    let call := calculateSafeRoute srv.engine dist lg currentLocation srv.usgsCache
      srv.currentHazards
    let srv1 := { srv with engine := call.2 }
    match call.1 with
    | .ok newRoute => (srv1, { s1 with route := newRoute }, .ok newRoute)
    | .error err => (srv1, s1, .error err)
  | .ok false => (srv, s1, .ok s1.route)

/-- The route_updated WebSocket emission. -/
structure RouteNotification where
  sessionId : String
  route : RouteResult
  reason : String
deriving DecidableEq, Repr

/-- The per-session recalculation block of checkAllRoutesForRecalculation,
server.js:444-463 (the try statement run once the trigger has decided to
recompute): on success the session's route and lastUpdate are replaced and
the client is notified; on any throw the catch only calls console.error —
the session keeps its previous route, its status field is not touched, and
nothing is emitted. -/
def recalcSessionRoute (srv : ServerState) (dist : GeoDist) (lg : Log10)
    (earthquakeData : Option SeismicData) (session : Session) :
    ServerState × Session × Option RouteNotification :=
  let call := calculateSafeRoute srv.engine dist lg session.currentLocation
    earthquakeData srv.currentHazards
  let srv1 := { srv with engine := call.2 }
  match call.1 with
  | .ok newRoute =>
    (srv1, { session with route := newRoute, lastUpdate := srv.nowMs },
      some ⟨session.id, newRoute, reasonEarthquakeActivity⟩)
  | .error _ => (srv1, session, none)

/- ===================== analysis vocabulary ===================== -/

/-- An edge entry with its mutable weight field cleared: two edges agree on
stripWeight exactly when they agree on every load-time (immutable) field. -/
def stripWeight (ed : GraphEdge) : GraphEdge := { ed with weight := 0 }

/-- Two engine states that can differ only in the mutable edge weights (and
in the two snapshot fields that every calculateSafeRoute call overwrites). -/
def agreesExceptWeights (a b : Engine) : Prop :=
  a.nodes = b.nodes ∧ a.safeZones = b.safeZones ∧
  a.crowdDensityMap = b.crowdDensityMap ∧
  a.structuralRiskMap = b.structuralRiskMap ∧
  a.edges.map stripWeight = b.edges.map stripWeight

/-- The distinct node ids of the graph. -/
def nodeIds (e : Engine) : Finset String := (e.nodes.map (fun n => n.id)).toFinset

/-- PathTo e goal n c: in engine e there is a walk from node id n to the node
id goal whose edge weights (resolved through getEdge, exactly as the search
does) sum to c.  The true remaining cost from n is the infimum of such c. -/
inductive PathTo (e : Engine) (goal : String) : String → ℚ → Prop where
  | refl : PathTo e goal goal 0
  | step {n m : String} {node : GraphNode} {ed : GraphEdge} {c : ℚ} :
      getNode e n = some node → m ∈ node.neighbors → getEdge e n m = some ed →
      PathTo e goal m c → PathTo e goal n (ed.weight + c)

/-- Total cost of a node sequence, resolving each consecutive pair through
getEdge; none if some pair has no edge entry. -/
def routeCost (e : Engine) : List GraphNode → Option ℚ
  | [] => some 0
  | [_] => some 0
  | a :: b :: rest =>
    match getEdge e a.id b.id with
    | none => none
    | some ed =>
      match routeCost e (b :: rest) with
      | none => none
      | some c => some (ed.weight + c)

/- ===================== concrete fixtures ===================== -/

def idS : String := "S"
def idT : String := "T"
def idA : String := "A"
def idB : String := "B"
def idG : String := "G"
def idZ : String := "Z"
def idSess : String := "evac-1"
def statusActive : String := "active"
def statusDegraded : String := "degraded"
def levelLOW : String := "LOW"

/-- Manhattan distance on (lng, lat) pairs: a concrete nonnegative symmetric
metric standing in for the great-circle oracle in the fixtures. -/
def exManhattan : GeoDist := fun p q => |p.1 - q.1| + |p.2 - q.2|

/-- A concrete stand-in for Math.log10; the fixtures carry no seismic events,
so it is never reached. -/
def exLg : Log10 := fun _ => 0

/-- Two-node line: S at (lng 0, lat 0), T at (lng 1, lat 0), one edge S-T of
base distance 1, a safe zone at T, no snapshots. -/
def ex1NodeS : GraphNode := ⟨idS, 0, 0, [idT]⟩
def ex1NodeT : GraphNode := ⟨idT, 0, 1, [idS]⟩
def ex1Edge : GraphEdge := ⟨edgeKey idS idT, 0, 0, 1, 0⟩
def ex1Zone : SafeZone := ⟨idZ, 0, 1⟩
def exEngine1 : Engine := ⟨[ex1NodeS, ex1NodeT], [ex1Edge], [ex1Zone], [], [], [], none⟩
def ex1Start : Coord := ⟨0, 0⟩

/-- exEngine1 with a different stored edge weight (5 instead of 0). -/
def exEngine1w : Engine :=
  { exEngine1 with edges := [⟨edgeKey idS idT, 0, 0, 1, 5⟩] }

/-- Engine with nodes but an empty safe-zone list. -/
def exEngine8 : Engine := ⟨[ex1NodeS, ex1NodeT], [ex1Edge], [], [], [], [], none⟩

/-- Diamond fixture for the A* claim.  Weights: S-A 4, S-B 1, B-A 1, A-G 3.
Coordinates chosen so that with the Manhattan oracle the heuristic values are
h(S) = 1, h(A) = 1/5, h(B) = 7/2, h(G) = 0: a nonnegative heuristic that
never overestimates the true remaining cost (checked against PathTo below),
yet f-ordering pops A via the expensive direct edge before B. -/
def ex4NodeS : GraphNode := ⟨idS, 0, 1, [idA, idB]⟩
def ex4NodeA : GraphNode := ⟨idA, 1/5, 0, [idG]⟩
def ex4NodeB : GraphNode := ⟨idB, 7/2, 0, [idA]⟩
def ex4NodeG : GraphNode := ⟨idG, 0, 0, []⟩
def ex4EdgeSA : GraphEdge := ⟨edgeKey idS idA, 0, 0, 1, 4⟩
def ex4EdgeSB : GraphEdge := ⟨edgeKey idS idB, 0, 0, 1, 1⟩
def ex4EdgeBA : GraphEdge := ⟨edgeKey idB idA, 0, 0, 1, 1⟩
def ex4EdgeAG : GraphEdge := ⟨edgeKey idA idG, 0, 0, 1, 3⟩
def exEngine4 : Engine :=
  ⟨[ex4NodeS, ex4NodeA, ex4NodeB, ex4NodeG],
    [ex4EdgeSA, ex4EdgeSB, ex4EdgeBA, ex4EdgeAG], [], [], [], [], none⟩
def ex4Start : Coord := ⟨0, 1⟩
def ex4Goal : Coord := ⟨0, 0⟩

/-- Disconnected fixture: two isolated nodes, safe zone at T; every search
from S fails with noPathFound. -/
def ex7NodeS : GraphNode := ⟨idS, 0, 0, []⟩
def ex7NodeT : GraphNode := ⟨idT, 0, 1, []⟩
def exEngine7 : Engine := ⟨[ex7NodeS, ex7NodeT], [], [⟨idZ, 0, 1⟩], [], [], [], none⟩
def ex7Route : RouteResult := ⟨[ex7NodeS], 0, levelLOW, []⟩
def exSession7 : Session := ⟨idSess, ⟨0, 0⟩, ⟨0, 0⟩, ex7Route, 0, 0, statusActive⟩
def exServer7 : ServerState := ⟨exEngine7, none, [], 0⟩

/-- exEngine1 with the freshly computed weight already stored (the state in
which generateAlternativeRoutes runs inside calculateSafeRoute). -/
def exEngine1u : Engine := { exEngine1 with edges := [{ ex1Edge with weight := 1/5 }] }

/-- Invariant of the A* loop state: every queued entry is a graph node, no
node is queued twice, and no queued node is settled. -/
def openInv (e : Engine) (closedSet : Finset String) (openSet : List OpenItem) : Prop :=
  (∀ it ∈ openSet, it.node ∈ e.nodes) ∧
  (openSet.map (fun it => it.node.id)).Nodup ∧
  (∀ it ∈ openSet, it.node.id ∉ closedSet)

/- ===================== helper lemmas ===================== -/

theorem lookupA_mem {α : Type} :
    ∀ {m : List (String × α)} {k : String} {v : α},
      lookupA m k = some v → ∃ p ∈ m, p.2 = v := by
  intro m
  induction m with
  | nil => intro k v h; exact Option.noConfusion h
  | cons p rest ih =>
    intro k v h
    unfold lookupA at h
    by_cases hp : p.1 == k
    · rw [if_pos hp] at h
      exact ⟨p, List.mem_cons_self p rest, Option.some.inj h⟩
    · rw [if_neg hp] at h
      obtain ⟨q, hq, hv⟩ := ih h
      exact ⟨q, List.mem_cons_of_mem p hq, hv⟩

theorem calculateShindoIntensity_nonneg (lg : Log10) (m d dep : ℚ) :
    0 ≤ calculateShindoIntensity lg m d dep :=
  le_max_left 0 _

theorem calculateShindoIntensity_le_seven (lg : Log10) (m d dep : ℚ) :
    calculateShindoIntensity lg m d dep ≤ 7 :=
  max_le (by norm_num) (min_le_left _ _)

theorem calculateSeismicRisk_bounds (dist : GeoDist) (lg : Log10)
    (edge : GraphEdge) (sd : Option SeismicData) :
    0 ≤ calculateSeismicRisk dist lg edge sd ∧ calculateSeismicRisk dist lg edge sd ≤ 1 := by
  have key : ∀ (l : List EqEvent) (acc : ℚ), 0 ≤ acc → acc ≤ 1 →
      0 ≤ l.foldl (fun maxRisk eq =>
        max maxRisk (min (calculateShindoIntensity lg eq.mag
          (dist (edge.startLng, edge.startLat) (eq.lng, eq.lat)) eq.depth / 7.0) 1.0)) acc ∧
      l.foldl (fun maxRisk eq =>
        max maxRisk (min (calculateShindoIntensity lg eq.mag
          (dist (edge.startLng, edge.startLat) (eq.lng, eq.lat)) eq.depth / 7.0) 1.0)) acc ≤ 1 := by
    intro l
    induction l with
    | nil => intro acc h0 h1; exact ⟨h0, h1⟩
    | cons eq rest ih =>
      intro acc h0 h1
      simp only [List.foldl_cons]
      apply ih
      · exact le_max_of_le_left h0
      · exact max_le h1 (le_trans (min_le_right _ _) (by norm_num))
  rcases sd with _ | ⟨_ | features⟩
  · constructor <;> norm_num [calculateSeismicRisk]
  · constructor <;> norm_num [calculateSeismicRisk]
  · exact key features 0 le_rfl (by norm_num)

theorem calculateStructuralRisk_bounds (m : List (String × StructuralData))
    (edge : GraphEdge) :
    0 ≤ calculateStructuralRisk m edge ∧ calculateStructuralRisk m edge ≤ 1 := by
  unfold calculateStructuralRisk
  cases lookupA m edge.id with
  | none => constructor <;> norm_num
  | some sd =>
    dsimp only
    constructor
    · refine le_min ?_ (by norm_num)
      split_ifs <;> norm_num
    · exact le_trans (min_le_right _ _) (by norm_num)

theorem getCrowdDensity_bounds (m : List (String × ℚ)) (edge : GraphEdge)
    (hd : ∀ p ∈ m, 0 ≤ p.2) :
    0 ≤ getCrowdDensity m edge ∧ getCrowdDensity m edge ≤ 1 := by
  unfold getCrowdDensity
  have hden : 0 ≤ (lookupA m edge.id).getD 0 := by
    cases h : lookupA m edge.id with
    | none => simp
    | some v =>
      obtain ⟨p, hp, hv⟩ := lookupA_mem h
      simpa [hv] using hd p hp
  constructor
  · exact le_min (by positivity) (by norm_num)
  · exact le_trans (min_le_right _ _) (by norm_num)

theorem hazardScore_nonneg (t : String) : 0 ≤ hazardScore t := by
  unfold hazardScore; split_ifs <;> norm_num

theorem getHazardReports_bounds (m : List (String × List Hazard)) (edge : GraphEdge) :
    0 ≤ getHazardReports m edge ∧ getHazardReports m edge ≤ 1 := by
  unfold getHazardReports
  have key : ∀ (l : List Hazard) (acc : ℚ), 0 ≤ acc →
      0 ≤ l.foldl (fun acc2 h => acc2 + hazardScore h.type) acc := by
    intro l
    induction l with
    | nil => intro acc h0; exact h0
    | cons h rest ih =>
      intro acc h0
      simp only [List.foldl_cons]
      exact ih _ (add_nonneg h0 (hazardScore_nonneg h.type))
  constructor
  · exact le_min (key _ 0 le_rfl) (by norm_num)
  · exact le_trans (min_le_right _ _) (by norm_num)

theorem map_baseDistance_of_preserve {f : GraphEdge → GraphEdge}
    (hf : ∀ ed, (f ed).baseDistance = ed.baseDistance) (l : List GraphEdge) :
    (l.map f).map (fun ed => ed.baseDistance) = l.map (fun ed => ed.baseDistance) := by
  induction l with
  | nil => rfl
  | cons ed rest ih => simp only [List.map_cons, hf, ih]

theorem updateEdgeWeights_baseDistance (dist : GeoDist) (lg : Log10) (e : Engine) :
    (updateEdgeWeights dist lg e).map (fun ed => ed.baseDistance) =
      e.edges.map (fun ed => ed.baseDistance) :=
  @map_baseDistance_of_preserve (updateEdgeWeight dist lg e) (fun _ => rfl) e.edges

theorem penalizeEdge_baseDistance (edges : List GraphEdge) (key : String) :
    (penalizeEdge edges key).map (fun ed => ed.baseDistance) =
      edges.map (fun ed => ed.baseDistance) :=
  map_baseDistance_of_preserve
    (fun ed => by by_cases h : ed.id = key <;> simp [h]) edges

theorem penalizeRoute_fold_baseDistance (r : List (GraphNode × GraphNode)) :
    ∀ edges : List GraphEdge,
      (r.foldl (fun es2 p => penalizeEdge es2 (edgeKey p.1.id p.2.id)) edges).map
          (fun ed => ed.baseDistance) =
        edges.map (fun ed => ed.baseDistance) := by
  induction r with
  | nil => intro edges; rfl
  | cons p ps ih =>
    intro edges
    simp only [List.foldl_cons]
    rw [ih, penalizeEdge_baseDistance]

theorem penalizePreviousRoutes_baseDistance (routes : List (List GraphNode)) :
    ∀ edges : List GraphEdge,
      (penalizePreviousRoutes edges routes).map (fun ed => ed.baseDistance) =
        edges.map (fun ed => ed.baseDistance) := by
  unfold penalizePreviousRoutes
  induction routes with
  | nil => intro edges; rfl
  | cons r rs ih =>
    intro edges
    simp only [List.foldl_cons]
    rw [ih, penalizeRoute_fold_baseDistance]

theorem altLoop_baseDistance (dist : GeoDist) (start goal : Coord)
    (primary : List GraphNode) :
    ∀ (k : Nat) (e : Engine) (alts : List (List GraphNode)),
      ((altLoop dist start goal primary k e alts).1).edges.map
          (fun ed => ed.baseDistance) =
        e.edges.map (fun ed => ed.baseDistance) := by
  intro k
  induction k with
  | zero => intro e alts; rfl
  | succ k ih =>
    intro e alts
    simp only [altLoop]
    cases h : aStarAlgorithm
        { e with edges := penalizePreviousRoutes e.edges (primary :: alts) }
        dist start goal with
    | ok altRoute =>
      simp only [h]
      rw [ih]
      exact penalizePreviousRoutes_baseDistance _ _
    | error err =>
      simp only [h]
      exact penalizePreviousRoutes_baseDistance _ _

theorem generateAlternativeRoutes_baseDistance (e : Engine) (dist : GeoDist)
    (start goal : Coord) (count : Nat) :
    ((generateAlternativeRoutes e dist start goal count).2).edges.map
        (fun ed => ed.baseDistance) =
      e.edges.map (fun ed => ed.baseDistance) := by
  unfold generateAlternativeRoutes
  cases h : aStarAlgorithm e dist start goal with
  | error err => simp only [h]
  | ok primary =>
    simp only [h]
    exact altLoop_baseDistance dist start goal primary count e []

theorem calculateSafeRouteCore_baseDistance (e : Engine) (dist : GeoDist)
    (loc : Coord) :
    ((calculateSafeRouteCore e dist loc).2).edges.map (fun ed => ed.baseDistance) =
      e.edges.map (fun ed => ed.baseDistance) := by
  unfold calculateSafeRouteCore
  cases h1 : findNearestSafeZone e dist loc with
  | none => simp only [h1]
  | some z =>
    simp only [h1]
    cases h2 : aStarAlgorithm e dist loc ⟨z.lat, z.lng⟩ with
    | error err => simp only [h2]
    | ok route =>
      simp only [h2]
      cases h3 : (generateAlternativeRoutes e dist loc ⟨z.lat, z.lng⟩ 2).1 with
      | error err =>
        simp only [h3]
        exact generateAlternativeRoutes_baseDistance e dist loc ⟨z.lat, z.lng⟩ 2
      | ok alts =>
        simp only [h3]
        exact generateAlternativeRoutes_baseDistance e dist loc ⟨z.lat, z.lng⟩ 2

theorem calculateSafeRoute_baseDistance (e : Engine) (dist : GeoDist) (lg : Log10)
    (loc : Coord) (sd : Option SeismicData) (hm : List (String × List Hazard)) :
    ((calculateSafeRoute e dist lg loc sd hm).2).edges.map (fun ed => ed.baseDistance) =
      e.edges.map (fun ed => ed.baseDistance) := by
  unfold calculateSafeRoute
  rw [calculateSafeRouteCore_baseDistance]
  exact updateEdgeWeights_baseDistance dist lg _

/-- Claim C2: for every edge, the computed edge cost equals
0.4·seismicRisk + 0.3·structuralRisk + 0.2·densityRisk + 0.1·hazardRisk +
0.1·baseDistance, with each risk term normalized to [0,1] before weighting
(crowd densities are nonnegative observations), and the whole cost is
multiplied by 3 exactly when seismicRisk > 0.8 or structuralRisk > 0.9. -/
theorem c2_edge_cost_formula (dist : GeoDist) (lg : Log10) (e : Engine)
    (hd : ∀ p ∈ e.crowdDensityMap, 0 ≤ p.2) :
    updateEdgeWeights dist lg e = e.edges.map (fun edge =>
      let s := calculateSeismicRisk dist lg edge e.seismicData
      let st := calculateStructuralRisk e.structuralRiskMap edge
      let d := getCrowdDensity e.crowdDensityMap edge
      let hz := getHazardReports e.hazardMap edge
      let cost : ℚ := 0.4 * s + 0.3 * st + 0.2 * d + 0.1 * hz + 0.1 * edge.baseDistance
      { edge with weight := if s > 0.8 ∨ st > 0.9 then 3 * cost else cost })
    ∧ ∀ edge : GraphEdge,
      (0 ≤ calculateSeismicRisk dist lg edge e.seismicData ∧
        calculateSeismicRisk dist lg edge e.seismicData ≤ 1) ∧
      (0 ≤ calculateStructuralRisk e.structuralRiskMap edge ∧
        calculateStructuralRisk e.structuralRiskMap edge ≤ 1) ∧
      (0 ≤ getCrowdDensity e.crowdDensityMap edge ∧
        getCrowdDensity e.crowdDensityMap edge ≤ 1) ∧
      (0 ≤ getHazardReports e.hazardMap edge ∧
        getHazardReports e.hazardMap edge ≤ 1) := by
  constructor
  · unfold updateEdgeWeights
    congr 1
    funext edge
    unfold updateEdgeWeight
    dsimp only
    congr 1
    split_ifs with hcond <;> ring
  · intro edge
    exact ⟨calculateSeismicRisk_bounds dist lg edge e.seismicData,
      calculateStructuralRisk_bounds e.structuralRiskMap edge,
      getCrowdDensity_bounds e.crowdDensityMap edge hd,
      getHazardReports_bounds e.hazardMap edge⟩

/-- Concrete instantiation of c2_edge_cost_formula. -/
theorem c2_edge_cost_formula_witness :
    0 ≤ calculateSeismicRisk exManhattan exLg ex1Edge exEngine1.seismicData ∧
      calculateSeismicRisk exManhattan exLg ex1Edge exEngine1.seismicData ≤ 1 :=
  ((c2_edge_cost_formula exManhattan exLg exEngine1 (by decide)).2 ex1Edge).1

/-- Claim C5: every computed edge cost is nonnegative and at least the
0.1·baseDistance floor (for nonnegative densities and base distances), and
the base distance of every edge is unchanged by the weight recomputation, by
the alternative-route penalties, and across a whole calculateSafeRoute call. -/
theorem c5_cost_floor_and_immutable_distance (dist : GeoDist) (lg : Log10)
    (e : Engine)
    (hd : ∀ p ∈ e.crowdDensityMap, 0 ≤ p.2)
    (hb : ∀ ed ∈ e.edges, 0 ≤ ed.baseDistance) :
    (∀ ed ∈ updateEdgeWeights dist lg e,
      0 ≤ ed.weight ∧ 0.1 * ed.baseDistance ≤ ed.weight)
    ∧ (updateEdgeWeights dist lg e).map (fun ed => ed.baseDistance) =
        e.edges.map (fun ed => ed.baseDistance)
    ∧ (∀ routes, (penalizePreviousRoutes e.edges routes).map
        (fun ed => ed.baseDistance) = e.edges.map (fun ed => ed.baseDistance))
    ∧ ∀ (loc : Coord) (sd : Option SeismicData) (hm : List (String × List Hazard)),
        ((calculateSafeRoute e dist lg loc sd hm).2).edges.map
            (fun ed => ed.baseDistance) =
          e.edges.map (fun ed => ed.baseDistance) := by
  refine ⟨?_, updateEdgeWeights_baseDistance dist lg e,
    fun routes => penalizePreviousRoutes_baseDistance routes e.edges,
    fun loc sd hm => calculateSafeRoute_baseDistance e dist lg loc sd hm⟩
  intro ed hed
  unfold updateEdgeWeights at hed
  obtain ⟨src, hsrc, hmap⟩ := List.mem_map.mp hed
  subst hmap
  have hs := (calculateSeismicRisk_bounds dist lg src e.seismicData).1
  have hst := (calculateStructuralRisk_bounds e.structuralRiskMap src).1
  have hcd := (getCrowdDensity_bounds e.crowdDensityMap src hd).1
  have hhz := (getHazardReports_bounds e.hazardMap src).1
  have hbd := hb src hsrc
  unfold updateEdgeWeight
  dsimp only
  split_ifs with h
  · exact ⟨by linarith, by linarith⟩
  · exact ⟨by linarith, by linarith⟩

/-- Concrete instantiation of c5_cost_floor_and_immutable_distance. -/
theorem c5_witness :
    ((calculateSafeRoute exEngine1 exManhattan exLg ex1Start none []).2).edges.map
        (fun ed => ed.baseDistance) =
      exEngine1.edges.map (fun ed => ed.baseDistance) :=
  (c5_cost_floor_and_immutable_distance exManhattan exLg exEngine1 (by decide)
    (by decide)).2.2.2 ex1Start none []

/-- Claim C10: per-edge seismic risk has the asymmetric empty-input
behaviour: a null snapshot or one without a features field yields the fixed
default 0.1, while a snapshot with an empty event list yields 0. -/
theorem c10_seismic_empty_asymmetry (dist : GeoDist) (lg : Log10)
    (edge : GraphEdge) :
    calculateSeismicRisk dist lg edge none = 0.1
    ∧ calculateSeismicRisk dist lg edge (some ⟨none⟩) = 0.1
    ∧ calculateSeismicRisk dist lg edge (some ⟨some []⟩) = 0 :=
  ⟨rfl, rfl, rfl⟩

theorem calculateSafeRoute_def (e : Engine) (dist : GeoDist) (lg : Log10)
    (loc : Coord) (sd : Option SeismicData) (hm : List (String × List Hazard)) :
    calculateSafeRoute e dist lg loc sd hm =
      calculateSafeRouteCore
        { e with
          seismicData := sd
          hazardMap := hm
          edges := updateEdgeWeights dist lg { e with seismicData := sd, hazardMap := hm } }
        dist loc := rfl

theorem calculateSafeRouteCore_noSafeZone (e : Engine) (dist : GeoDist)
    (loc : Coord) (h : e.safeZones = []) :
    calculateSafeRouteCore e dist loc = (.error .noSafeZoneAvailable, e) := by
  have hz : findNearestSafeZone e dist loc = none := by
    unfold findNearestSafeZone
    rw [h]
    rfl
  unfold calculateSafeRouteCore
  rw [hz]

/-- Claim C8: when the safe-zone list is empty, calculateSafeRoute reports
noSafeZoneAvailable for every origin and every snapshot (a thrown Error, not
a crash and not an empty route). -/
theorem c8_empty_safe_zone_list (e : Engine) (dist : GeoDist) (lg : Log10)
    (loc : Coord) (sd : Option SeismicData) (hm : List (String × List Hazard))
    (h : e.safeZones = []) :
    (calculateSafeRoute e dist lg loc sd hm).1 = .error .noSafeZoneAvailable := by
  rw [calculateSafeRoute_def,
    calculateSafeRouteCore_noSafeZone
      { e with
        seismicData := sd
        hazardMap := hm
        edges := updateEdgeWeights dist lg { e with seismicData := sd, hazardMap := hm } }
      dist loc h]

/-- Concrete instantiation of c8_empty_safe_zone_list. -/
theorem c8_witness :
    (calculateSafeRoute exEngine8 exManhattan exLg ex1Start none []).1 =
      .error .noSafeZoneAvailable :=
  c8_empty_safe_zone_list exEngine8 exManhattan exLg ex1Start none [] rfl

theorem updateEdgeWeight_congr (dist : GeoDist) (lg : Log10) (e1 e2 : Engine)
    (hc : e1.crowdDensityMap = e2.crowdDensityMap)
    (hs : e1.structuralRiskMap = e2.structuralRiskMap)
    (hh : e1.hazardMap = e2.hazardMap)
    (hsd : e1.seismicData = e2.seismicData)
    {x y : GraphEdge} (hxy : stripWeight x = stripWeight y) :
    updateEdgeWeight dist lg e1 x = updateEdgeWeight dist lg e2 y := by
  cases x with
  | mk xid xsl xsn xbd xw =>
    cases y with
    | mk yid ysl ysn ybd yw =>
      simp only [stripWeight, GraphEdge.mk.injEq, and_true] at hxy
      obtain ⟨h1, h2, h3, h4⟩ := hxy
      subst h1; subst h2; subst h3; subst h4
      simp only [updateEdgeWeight, hc, hs, hh, hsd]
      rfl

theorem map_updateEdgeWeight_congr (dist : GeoDist) (lg : Log10) (e1 e2 : Engine)
    (hc : e1.crowdDensityMap = e2.crowdDensityMap)
    (hs : e1.structuralRiskMap = e2.structuralRiskMap)
    (hh : e1.hazardMap = e2.hazardMap)
    (hsd : e1.seismicData = e2.seismicData) :
    ∀ l1 l2 : List GraphEdge, l1.map stripWeight = l2.map stripWeight →
      l1.map (updateEdgeWeight dist lg e1) = l2.map (updateEdgeWeight dist lg e2) := by
  intro l1
  induction l1 with
  | nil =>
    intro l2 h
    cases l2 with
    | nil => rfl
    | cons y ys => simp at h
  | cons x xs ih =>
    intro l2 h
    cases l2 with
    | nil => simp at h
    | cons y ys =>
      simp only [List.map_cons, List.cons.injEq] at h ⊢
      exact ⟨updateEdgeWeight_congr dist lg e1 e2 hc hs hh hsd h.1, ih ys h.2⟩

theorem updateEdgeWeights_congr (dist : GeoDist) (lg : Log10) (e1 e2 : Engine)
    (hc : e1.crowdDensityMap = e2.crowdDensityMap)
    (hs : e1.structuralRiskMap = e2.structuralRiskMap)
    (hh : e1.hazardMap = e2.hazardMap)
    (hsd : e1.seismicData = e2.seismicData)
    (he : e1.edges.map stripWeight = e2.edges.map stripWeight) :
    updateEdgeWeights dist lg e1 = updateEdgeWeights dist lg e2 :=
  map_updateEdgeWeight_congr dist lg e1 e2 hc hs hh hsd e1.edges e2.edges he

/-- Claim C9: calculateSafeRoute is deterministic for a fixed (graph,
snapshot, hazard map, density) input: two engine states that agree on
everything except the mutable edge weights (which intermediate calls may have
scribbled over) produce the same result — primary route, time, risk level,
and alternative routes alike. -/
theorem c9_deterministic_for_fixed_inputs (dist : GeoDist) (lg : Log10)
    (a b : Engine) (loc : Coord) (sd : Option SeismicData)
    (hm : List (String × List Hazard))
    (h : agreesExceptWeights a b) :
    (calculateSafeRoute a dist lg loc sd hm).1 =
      (calculateSafeRoute b dist lg loc sd hm).1 := by
  obtain ⟨hn, hz, hc, hs, he⟩ := h
  rw [calculateSafeRoute_def, calculateSafeRoute_def]
  have hupd : updateEdgeWeights dist lg { a with seismicData := sd, hazardMap := hm } =
      updateEdgeWeights dist lg { b with seismicData := sd, hazardMap := hm } :=
    updateEdgeWeights_congr dist lg _ _ hc hs rfl rfl he
  rw [hupd, hn, hz, hc, hs]

/-- Concrete instantiation of c9_deterministic_for_fixed_inputs: the two
engines differ only in the stored edge weight (0 versus 5). -/
theorem c9_witness :
    (calculateSafeRoute exEngine1 exManhattan exLg ex1Start none []).1 =
      (calculateSafeRoute exEngine1w exManhattan exLg ex1Start none []).1 :=
  c9_deterministic_for_fixed_inputs exManhattan exLg exEngine1 exEngine1w ex1Start
    none [] ⟨rfl, rfl, rfl, rfl, rfl⟩

/-- Counterexample to claim C1 as stated: risk weighting and the
alternative-route ×2 penalties are written into the shared edge structure,
not a private overlay.  On the one-edge fixture the stored shared weight is 0
before the call; updateEdgeWeights alone computes cost 1/5; yet after
calculateSafeRoute returns, the engine's shared edge carries weight 8/5 — the
recomputed cost doubled three times by penalizePreviousRoutes and left behind
in the shared graph. -/
theorem c1_counterexample :
    exEngine1.edges.map (fun ed => ed.weight) = [0]
    ∧ updateEdgeWeights exManhattan exLg
        { exEngine1 with seismicData := none, hazardMap := [] } =
        [{ ex1Edge with weight := 1/5 }]
    ∧ ((calculateSafeRoute exEngine1 exManhattan exLg ex1Start none []).2).edges.map
        (fun ed => ed.weight) = [8/5]
    ∧ ((8 : ℚ)/5 ≠ 1/5 ∧ (8 : ℚ)/5 ≠ 0) := by decide

/-- Claim C1 (amended): applying risk weights and alternative-route penalties
mutates the shared edge structure and the penalties persist after the call
(see c1_counterexample); cross-calculation isolation nevertheless holds for
non-interleaved calls because every calculation starts by recomputing each
edge weight from the snapshot inputs alone — the recomputation is independent
of whatever weights a previous calculation left in the shared graph. -/
theorem c1_amended_fresh_recompute (dist : GeoDist) (lg : Log10) (a b : Engine)
    (sd : Option SeismicData) (hm : List (String × List Hazard))
    (hc : a.crowdDensityMap = b.crowdDensityMap)
    (hs : a.structuralRiskMap = b.structuralRiskMap)
    (he : a.edges.map stripWeight = b.edges.map stripWeight) :
    updateEdgeWeights dist lg { a with seismicData := sd, hazardMap := hm } =
      updateEdgeWeights dist lg { b with seismicData := sd, hazardMap := hm } :=
  updateEdgeWeights_congr dist lg _ _ hc hs rfl rfl he

/-- Concrete instantiation of c1_amended_fresh_recompute. -/
theorem c1_amended_witness :
    updateEdgeWeights exManhattan exLg
        { exEngine1 with seismicData := none, hazardMap := [] } =
      updateEdgeWeights exManhattan exLg
        { exEngine1w with seismicData := none, hazardMap := [] } :=
  c1_amended_fresh_recompute exManhattan exLg exEngine1 exEngine1w none [] rfl rfl rfl

/-- Counterexample to claim C6 as stated: on the one-edge fixture the two
returned alternative routes are the same node sequence as the primary route —
the ×2 penalty discourages but cannot prevent reuse, and no distinctness
filter exists. -/
theorem c6_counterexample :
    ((calculateSafeRoute exEngine1 exManhattan exLg ex1Start none []).1.map
        (fun r => r.alternativeRoutes.any (fun a => decide (a = r.route)))) =
      Except.ok true
    ∧ ((calculateSafeRoute exEngine1 exManhattan exLg ex1Start none []).1.map
        (fun r => r.alternativeRoutes.length)) = Except.ok 2 := by decide

theorem altLoop_length_le (dist : GeoDist) (start goal : Coord)
    (primary : List GraphNode) :
    ∀ (k : Nat) (e : Engine) (alternatives : List (List GraphNode)),
      ((altLoop dist start goal primary k e alternatives).2).length ≤
        alternatives.length + k := by
  intro k
  induction k with
  | zero => intro e alternatives; exact Nat.le_add_right _ 0
  | succ k ih =>
    intro e alternatives
    simp only [altLoop]
    cases h : aStarAlgorithm
        { e with edges := penalizePreviousRoutes e.edges (primary :: alternatives) }
        dist start goal with
    | ok altRoute =>
      simp only [h]
      have := ih { e with edges := penalizePreviousRoutes e.edges (primary :: alternatives) }
        (alternatives ++ [altRoute])
      simp only [List.length_append, List.length_cons, List.length_nil] at this
      omega
    | error err =>
      simp only [h]
      omega

/-- Claim C6 (amended): alternative-route generation returns at most count
(default 2) routes, each obtained by re-running the search after doubling the
weights of all edges used by the primary route and the alternatives found so
far; it performs no distinctness filtering, so a returned alternative can be
the very node sequence of the primary route (see c6_counterexample, where
both alternatives equal the primary on a single-path graph). -/
theorem c6_amended_at_most_count (e : Engine) (dist : GeoDist)
    (start goal : Coord) (count : Nat) (alternatives : List (List GraphNode))
    (h : (generateAlternativeRoutes e dist start goal count).1 = .ok alternatives) :
    alternatives.length ≤ count := by
  unfold generateAlternativeRoutes at h
  cases ha : aStarAlgorithm e dist start goal with
  | error err => rw [ha] at h; exact absurd h (by simp)
  | ok primary =>
    rw [ha] at h
    dsimp only at h
    simp only [Except.ok.injEq] at h
    subst h
    simpa using altLoop_length_le dist start goal primary count e []

/-- Concrete instantiation of c6_amended_at_most_count. -/
theorem c6_amended_witness :
    ([[ex1NodeS, ex1NodeT], [ex1NodeS, ex1NodeT]] : List (List GraphNode)).length ≤ 2 :=
  c6_amended_at_most_count exEngine1u exManhattan ex1Start ⟨0, 1⟩ 2
    [[ex1NodeS, ex1NodeT], [ex1NodeS, ex1NodeT]] (by decide)

/-- Claim C3 (code bug): every evaluation of the recalculation trigger calls
the nonexistent engine method checkRouteForHazards and throws a TypeError, so
for every server state and session — in particular when an M ≥ 5.0 event
occurred within the last hour, where the claim requires a recalculation — the
location-update handler answers with the caught error (a 500) and never
recalculates; the stored route is left unchanged in all cases. -/
theorem c3_recalculation_trigger_crashes (srv : ServerState) (dist : GeoDist)
    (lg : Log10) (session : Session) (loc : Coord) :
    checkRouteRecalculation srv session = .error .typeError
    ∧ (routeUpdateHandler srv dist lg session loc).2.1.route = session.route
    ∧ (routeUpdateHandler srv dist lg session loc).2.2 = .error .typeError :=
  ⟨rfl, rfl, rfl⟩

/-- Counterexample to claim C7 as stated: on the disconnected fixture the
recalculation fails with noPathFound; the session keeps its previous route —
but its status stays active (it is never set to degraded) and no notification
is emitted, so the failure is not surfaced to the caller. -/
theorem c7_counterexample :
    (calculateSafeRoute exServer7.engine exManhattan exLg
        exSession7.currentLocation none exServer7.currentHazards).1 =
      .error .noPathFound
    ∧ (recalcSessionRoute exServer7 exManhattan exLg none exSession7).2.1 = exSession7
    ∧ (recalcSessionRoute exServer7 exManhattan exLg none exSession7).2.2 = none
    ∧ exSession7.status = statusActive
    ∧ statusActive ≠ statusDegraded := by decide

/-- Claim C7 (amended): whenever recalculation of a session's route fails,
the session's previously computed route is retained unchanged, but the
session record is left exactly as it was — its status is never flagged
degraded — and the failure is only logged, never surfaced to the caller (no
notification is emitted). -/
theorem c7_amended_failure_swallowed (srv : ServerState) (dist : GeoDist)
    (lg : Log10) (earthquakeData : Option SeismicData) (s : Session) (err : JsErr)
    (h : (calculateSafeRoute srv.engine dist lg s.currentLocation earthquakeData
        srv.currentHazards).1 = .error err) :
    (recalcSessionRoute srv dist lg earthquakeData s).2.1 = s
    ∧ (recalcSessionRoute srv dist lg earthquakeData s).2.2 = none := by
  unfold recalcSessionRoute
  dsimp only
  rw [h]
  exact ⟨rfl, rfl⟩

/-- Concrete instantiation of c7_amended_failure_swallowed. -/
theorem c7_amended_witness :
    (recalcSessionRoute exServer7 exManhattan exLg none exSession7).2.1 = exSession7
    ∧ (recalcSessionRoute exServer7 exManhattan exLg none exSession7).2.2 = none :=
  c7_amended_failure_swallowed exServer7 exManhattan exLg none exSession7
    .noPathFound (by decide)

theorem pushOpen_perm (it : OpenItem) :
    ∀ l : List OpenItem, List.Perm (pushOpen it l) (it :: l) := by
  intro l
  induction l with
  | nil => exact List.Perm.refl _
  | cons x xs ih =>
    unfold pushOpen
    by_cases h : it.fScore < x.fScore
    · rw [if_pos h]
    · rw [if_neg h]
      exact List.Perm.trans (List.Perm.cons x ih) (List.Perm.swap it x xs)

theorem mem_pushOpen {it x : OpenItem} {l : List OpenItem} :
    x ∈ pushOpen it l ↔ x = it ∨ x ∈ l := by
  rw [(pushOpen_perm it l).mem_iff, List.mem_cons]

theorem getNode_mem {e : Engine} {nodeId : String} {n : GraphNode}
    (h : getNode e nodeId = some n) : n ∈ e.nodes :=
  List.mem_of_find?_eq_some h

theorem getNode_id {e : Engine} {nodeId : String} {n : GraphNode}
    (h : getNode e nodeId = some n) : n.id = nodeId := by
  have := List.find?_some h
  simpa using this

theorem findNearestNode_mem (e : Engine) (dist : GeoDist) (loc : Coord)
    {n : GraphNode} (h : findNearestNode e dist loc = some n) : n ∈ e.nodes := by
  unfold findNearestNode at h
  have key : ∀ (l : List GraphNode) (acc : Option (GraphNode × ℚ)),
      (∀ q : GraphNode × ℚ, acc = some q → q.1 ∈ e.nodes) →
      (∀ x ∈ l, x ∈ e.nodes) →
      ∀ q : GraphNode × ℚ,
        l.foldl (fun best node =>
          let d := 1000 * dist (loc.lng, loc.lat) (node.lng, node.lat)
          match best with
          | none => some (node, d)
          | some (bn, bd) => if d < bd then some (node, d) else some (bn, bd))
          acc = some q →
        q.1 ∈ e.nodes := by
    intro l
    induction l with
    | nil => intro acc hacc _ q hq; exact hacc q hq
    | cons x xs ih =>
      intro acc hacc hl q hq
      rw [List.foldl_cons] at hq
      refine ih _ ?_ (fun y hy => hl y (List.mem_cons_of_mem x hy)) q hq
      intro q2 hq2
      dsimp only at hq2
      cases acc with
      | none =>
        injection hq2 with h2
        rw [← h2]
        exact hl x (List.mem_cons_self x xs)
      | some p =>
        cases p with
        | mk bn bd =>
          dsimp only at hq2
          split_ifs at hq2 with hlt
          · injection hq2 with h2
            rw [← h2]
            exact hl x (List.mem_cons_self x xs)
          · injection hq2 with h2
            rw [← h2]
            exact hacc (bn, bd) rfl
  rw [Option.map_eq_some'] at h
  obtain ⟨q, hq, hqn⟩ := h
  exact hqn ▸ key e.nodes none (fun q2 hq2 => Option.noConfusion hq2)
    (fun x hx => hx) q hq

theorem openInv_push {e : Engine} {closedSet : Finset String} {l : List OpenItem}
    {neighbor : GraphNode} {fv : ℚ}
    (hin : openInv e closedSet l)
    (hmemN : neighbor ∈ e.nodes)
    (hfresh : ∀ it ∈ l, it.node.id ≠ neighbor.id)
    (hncl : neighbor.id ∉ closedSet) :
    openInv e closedSet (pushOpen ⟨neighbor, fv⟩ l) := by
  obtain ⟨hmem, hnd, hcl2⟩ := hin
  refine ⟨?_, ?_, ?_⟩
  · intro it hit
    rcases mem_pushOpen.mp hit with rfl | hit2
    · exact hmemN
    · exact hmem it hit2
  · have hperm := (pushOpen_perm (⟨neighbor, fv⟩ : OpenItem) l).map
      (fun it => it.node.id)
    rw [hperm.nodup_iff]
    simp only [List.map_cons]
    rw [List.nodup_cons]
    refine ⟨?_, hnd⟩
    intro hmem2
    obtain ⟨it, hit, hid⟩ := List.mem_map.mp hmem2
    exact hfresh it hit hid
  · intro it hit
    rcases mem_pushOpen.mp hit with rfl | hit2
    · exact hncl
    · exact hcl2 it hit2

theorem relaxOne_inv {e : Engine} {dist : GeoDist} {goalNode current : GraphNode}
    {closedSet : Finset String} {st st1 : AStarState} {neighborId : String}
    (h : relaxOne e dist goalNode current closedSet st neighborId = .ok st1)
    (hin : openInv e closedSet st.1) : openInv e closedSet st1.1 := by
  unfold relaxOne at h
  by_cases hcl : neighborId ∈ closedSet
  · rw [if_pos hcl] at h
    injection h with h2
    subst h2
    exact hin
  · rw [if_neg hcl] at h
    cases hn : getNode e neighborId with
    | none => rw [hn] at h; exact Except.noConfusion h
    | some neighbor =>
      rw [hn] at h
      cases hed : getEdge e current.id neighborId with
      | none => rw [hed] at h; exact Except.noConfusion h
      | some edge =>
        rw [hed] at h
        cases hg : lookupA st.2.1 current.id with
        | none => rw [hg] at h; exact Except.noConfusion h
        | some gCur =>
          rw [hg] at h
          dsimp only at h
          split at h
          · injection h with h2
            rw [← h2]
            dsimp only
            split
            · exact hin
            · next hnotin =>
              refine openInv_push hin (getNode_mem hn) ?_
                (by rw [getNode_id hn]; exact hcl)
              intro it hit hid
              rw [getNode_id hn] at hid
              exact hnotin (List.any_eq_true.mpr ⟨it, hit, by simp [hid]⟩)
          · injection h with h2
            subst h2
            exact hin

theorem relaxOne_error {e : Engine} {dist : GeoDist} {goalNode current : GraphNode}
    {closedSet : Finset String} {st : AStarState} {neighborId : String} {err : JsErr}
    (h : relaxOne e dist goalNode current closedSet st neighborId = .error err) :
    err = .typeError := by
  unfold relaxOne at h
  by_cases hcl : neighborId ∈ closedSet
  · rw [if_pos hcl] at h
    exact Except.noConfusion h
  · rw [if_neg hcl] at h
    cases hn : getNode e neighborId with
    | none => rw [hn] at h; exact (Except.error.inj h).symm
    | some neighbor =>
      rw [hn] at h
      cases hed : getEdge e current.id neighborId with
      | none => rw [hed] at h; exact (Except.error.inj h).symm
      | some edge =>
        rw [hed] at h
        cases hg : lookupA st.2.1 current.id with
        | none => rw [hg] at h; exact (Except.error.inj h).symm
        | some gCur =>
          rw [hg] at h
          dsimp only at h
          split at h
          · exact Except.noConfusion h
          · exact Except.noConfusion h

theorem relaxNeighbors_inv {e : Engine} {dist : GeoDist} {goalNode current : GraphNode}
    {closedSet : Finset String} :
    ∀ {nbrs : List String} {st st1 : AStarState},
      relaxNeighbors e dist goalNode current closedSet nbrs st = .ok st1 →
      openInv e closedSet st.1 → openInv e closedSet st1.1 := by
  intro nbrs
  induction nbrs with
  | nil =>
    intro st st1 h hin
    injection h with h2
    subst h2
    exact hin
  | cons neighborId rest ih =>
    intro st st1 h hin
    unfold relaxNeighbors at h
    cases ho : relaxOne e dist goalNode current closedSet st neighborId with
    | error err => rw [ho] at h; exact Except.noConfusion h
    | ok st2 =>
      rw [ho] at h
      exact ih h (relaxOne_inv ho hin)

theorem relaxNeighbors_error {e : Engine} {dist : GeoDist}
    {goalNode current : GraphNode} {closedSet : Finset String} :
    ∀ {nbrs : List String} {st : AStarState} {err : JsErr},
      relaxNeighbors e dist goalNode current closedSet nbrs st = .error err →
      err = .typeError := by
  intro nbrs
  induction nbrs with
  | nil =>
    intro st err h
    exact Except.noConfusion h
  | cons neighborId rest ih =>
    intro st err h
    unfold relaxNeighbors at h
    cases ho : relaxOne e dist goalNode current closedSet st neighborId with
    | error err2 =>
      rw [ho] at h
      have := Except.error.inj h
      rw [← this]
      exact relaxOne_error ho
    | ok st2 =>
      rw [ho] at h
      exact ih h

theorem card_sdiff_insert_lt {s t : Finset String} {x : String}
    (hx : x ∈ s) (hnx : x ∉ t) : (s \ insert x t).card < (s \ t).card := by
  have h1 : s \ insert x t = (s \ t).erase x := by
    ext y
    simp only [Finset.mem_sdiff, Finset.mem_insert, Finset.mem_erase]
    tauto
  rw [h1]
  have hmem : x ∈ s \ t := Finset.mem_sdiff.mpr ⟨hx, hnx⟩
  rw [Finset.card_erase_of_mem hmem]
  exact Nat.sub_lt (Finset.card_pos.mpr ⟨x, hmem⟩) Nat.one_pos

theorem openInv_tail {e : Engine} {closedSet : Finset String} {item : OpenItem}
    {rest : List OpenItem} (hin : openInv e closedSet (item :: rest)) :
    openInv e (insert item.node.id closedSet) rest := by
  obtain ⟨hmem, hnd, hncl⟩ := hin
  simp only [List.map_cons, List.nodup_cons] at hnd
  refine ⟨fun it hit => hmem it (List.mem_cons_of_mem _ hit), hnd.2, ?_⟩
  intro it hit
  rw [Finset.mem_insert]
  push_neg
  constructor
  · intro heq
    exact hnd.1 (heq ▸ List.mem_map_of_mem (fun it2 => it2.node.id) hit)
  · exact hncl it (List.mem_cons_of_mem _ hit)

theorem aStarAux_ne_fuelExhausted (e : Engine) (dist : GeoDist) (goalNode : GraphNode) :
    ∀ (fuel : Nat) (openSet : List OpenItem) (closedSet : Finset String)
      (gScore fScore : List (String × ℚ)) (cameFrom : List (String × String)),
      openInv e closedSet openSet →
      (nodeIds e \ closedSet).card < fuel →
      aStarAux e dist goalNode fuel openSet closedSet gScore fScore cameFrom ≠
        .error .fuelExhausted := by
  intro fuel
  induction fuel with
  | zero => intro _ _ _ _ _ _ hcard; exact absurd hcard (Nat.not_lt_zero _)
  | succ fuel ih =>
    intro openSet closedSet gScore fScore cameFrom hin hcard
    cases openSet with
    | nil =>
      unfold aStarAux
      intro hc
      exact JsErr.noConfusion (Except.error.inj hc)
    | cons item rest =>
      unfold aStarAux
      by_cases hgoal : item.node.id = goalNode.id
      · rw [if_pos hgoal]
        intro hc
        exact Except.noConfusion hc
      · rw [if_neg hgoal]
        dsimp only
        cases hr : relaxNeighbors e dist goalNode item.node
            (insert item.node.id closedSet) item.node.neighbors
            (rest, gScore, fScore, cameFrom) with
        | error err =>
          intro hc
          have h1 : err = JsErr.fuelExhausted := Except.error.inj hc
          have h2 : err = JsErr.typeError := relaxNeighbors_error hr
          rw [h1] at h2
          exact JsErr.noConfusion h2
        | ok st1 =>
          show aStarAux e dist goalNode fuel st1.1 (insert item.node.id closedSet)
            st1.2.1 st1.2.2.1 st1.2.2.2 ≠ Except.error JsErr.fuelExhausted
          have htail : openInv e (insert item.node.id closedSet) rest := openInv_tail hin
          have hinv1 := relaxNeighbors_inv hr htail
          apply ih st1.1 (insert item.node.id closedSet) st1.2.1 st1.2.2.1 st1.2.2.2 hinv1
          have hidmem : item.node.id ∈ nodeIds e := by
            have hm := hin.1 item (List.mem_cons_self item rest)
            unfold nodeIds
            rw [List.mem_toFinset]
            exact List.mem_map_of_mem (fun n => n.id) hm
          have hidcl : item.node.id ∉ closedSet :=
            hin.2.2 item (List.mem_cons_self item rest)
          have hlt := card_sdiff_insert_lt hidmem hidcl
          omega

/-- Claim C4 (amended): the search always terminates — the fueled loop with a
budget of one more than the number of graph nodes never exhausts its fuel,
because every iteration permanently settles a distinct graph node.  The
cost-minimality half of the original claim is false: see c4_counterexample —
a node already in the open set is never re-prioritized when a cheaper path to
it is found and settled nodes are never reopened, so the search can return a
path strictly costlier than an existing origin-goal path even when every edge
cost is nonnegative and the heuristic never overestimates the true remaining
cost. -/
theorem c4_amended_search_terminates (e : Engine) (dist : GeoDist)
    (start goal : Coord) :
    aStarAlgorithm e dist start goal ≠ .error .fuelExhausted := by
  unfold aStarAlgorithm
  cases hs : findNearestNode e dist start with
  | none =>
    cases hg : findNearestNode e dist goal with
    | none =>
      intro hc
      exact JsErr.noConfusion (Except.error.inj hc)
    | some goalNode =>
      intro hc
      exact JsErr.noConfusion (Except.error.inj hc)
  | some startNode =>
    cases hg : findNearestNode e dist goal with
    | none =>
      intro hc
      exact JsErr.noConfusion (Except.error.inj hc)
    | some goalNode =>
      show aStarAux e dist goalNode (e.nodes.length + 1)
        [⟨startNode, heuristic dist startNode goalNode⟩] ∅ [(startNode.id, 0)]
        [(startNode.id, heuristic dist startNode goalNode)] [] ≠
        Except.error JsErr.fuelExhausted
      apply aStarAux_ne_fuelExhausted
      · refine ⟨?_, by simp, ?_⟩
        · intro it hit
          simp only [List.mem_singleton] at hit
          subst hit
          exact findNearestNode_mem e dist start hs
        · intro it hit
          exact Finset.not_mem_empty _
      · rw [Finset.sdiff_empty]
        have hle := List.toFinset_card_le (e.nodes.map (fun n => n.id))
        unfold nodeIds
        simp only [List.length_map] at hle
        omega

theorem pathToC4_gen (n : String) (c : ℚ) (h : PathTo exEngine4 idG n c) :
    (n = idG → c = 0) ∧ (n = idA → c = 3) ∧ (n = idB → c = 4) ∧
      (n = idS → c = 7 ∨ c = 5) := by
  induction h with
  | refl =>
    exact ⟨fun _ => rfl, fun hx => absurd hx (by decide),
      fun hx => absurd hx (by decide), fun hx => absurd hx (by decide)⟩
  | step h1 h2 h3 h4 ih =>
    rename_i n2 m node ed c2
    refine ⟨?_, ?_, ?_, ?_⟩
    · intro hn
      subst hn
      rw [show getNode exEngine4 idG = some ex4NodeG from by decide] at h1
      injection h1 with hnode
      rw [← hnode] at h2
      simp [ex4NodeG] at h2
    · intro hn
      subst hn
      rw [show getNode exEngine4 idA = some ex4NodeA from by decide] at h1
      injection h1 with hnode
      rw [← hnode] at h2
      simp [ex4NodeA] at h2
      subst h2
      rw [show getEdge exEngine4 idA idG = some ex4EdgeAG from by decide] at h3
      injection h3 with hed
      rw [← hed, ih.1 rfl]
      decide
    · intro hn
      subst hn
      rw [show getNode exEngine4 idB = some ex4NodeB from by decide] at h1
      injection h1 with hnode
      rw [← hnode] at h2
      simp [ex4NodeB] at h2
      subst h2
      rw [show getEdge exEngine4 idB idA = some ex4EdgeBA from by decide] at h3
      injection h3 with hed
      rw [← hed, ih.2.1 rfl]
      decide
    · intro hn
      subst hn
      rw [show getNode exEngine4 idS = some ex4NodeS from by decide] at h1
      injection h1 with hnode
      rw [← hnode] at h2
      simp [ex4NodeS] at h2
      rcases h2 with rfl | rfl
      · left
        rw [show getEdge exEngine4 idS idA = some ex4EdgeSA from by decide] at h3
        injection h3 with hed
        rw [← hed, ih.2.1 rfl]
        decide
      · right
        rw [show getEdge exEngine4 idS idB = some ex4EdgeSB from by decide] at h3
        injection h3 with hed
        rw [← hed, ih.2.2.1 rfl]
        decide

/-- Counterexample to claim C4 as stated: on the diamond fixture every edge
cost is nonnegative and the heuristic is nonnegative and never overestimates
the true remaining cost (verified against every derivable origin-to-goal walk
cost), yet the search returns the path S-A-G of cost 7 while the
origin-to-goal path S-B-A-G costs 5: A is settled through the expensive
direct edge before the cheaper route through B is discovered, and settled
nodes are never reopened. -/
theorem c4_counterexample :
    (∀ ed ∈ exEngine4.edges, 0 ≤ ed.weight)
    ∧ (∀ node ∈ exEngine4.nodes, 0 ≤ heuristic exManhattan node ex4NodeG)
    ∧ (∀ node ∈ exEngine4.nodes, ∀ c : ℚ, PathTo exEngine4 idG node.id c →
        heuristic exManhattan node ex4NodeG ≤ c)
    ∧ aStarAlgorithm exEngine4 exManhattan ex4Start ex4Goal =
        .ok [ex4NodeS, ex4NodeA, ex4NodeG]
    ∧ routeCost exEngine4 [ex4NodeS, ex4NodeA, ex4NodeG] = some 7
    ∧ PathTo exEngine4 idG idS 5
    ∧ routeCost exEngine4 [ex4NodeS, ex4NodeB, ex4NodeA, ex4NodeG] = some 5
    ∧ (5 : ℚ) < 7 := by
  refine ⟨by decide, by decide, ?_, by decide, by decide, ?_, by decide, by decide⟩
  · intro node hmem c hp
    have hconj := pathToC4_gen node.id c hp
    have hmem2 : node = ex4NodeS ∨ node = ex4NodeA ∨ node = ex4NodeB ∨
        node = ex4NodeG := by simpa [exEngine4] using hmem
    rcases hmem2 with rfl | rfl | rfl | rfl
    · rw [show heuristic exManhattan ex4NodeS ex4NodeG = 1 from by decide]
      rcases hconj.2.2.2 rfl with rfl | rfl <;> norm_num
    · rw [show heuristic exManhattan ex4NodeA ex4NodeG = 1/5 from by decide]
      rw [hconj.2.1 rfl]
      norm_num
    · rw [show heuristic exManhattan ex4NodeB ex4NodeG = 7/2 from by decide]
      rw [hconj.2.2.1 rfl]
      norm_num
    · rw [show heuristic exManhattan ex4NodeG ex4NodeG = 0 from by decide]
      rw [hconj.1 rfl]
  · have h0 : PathTo exEngine4 idG idG 0 := PathTo.refl
    have hA : PathTo exEngine4 idG idA (ex4EdgeAG.weight + 0) :=
      @PathTo.step exEngine4 idG idA idG ex4NodeA ex4EdgeAG 0
        (by decide) (by decide) (by decide) h0
    have hB : PathTo exEngine4 idG idB
        (ex4EdgeBA.weight + (ex4EdgeAG.weight + 0)) :=
      @PathTo.step exEngine4 idG idB idA ex4NodeB ex4EdgeBA _
        (by decide) (by decide) (by decide) hA
    have hS : PathTo exEngine4 idG idS
        (ex4EdgeSB.weight + (ex4EdgeBA.weight + (ex4EdgeAG.weight + 0))) :=
      @PathTo.step exEngine4 idG idS idB ex4NodeS ex4EdgeSB _
        (by decide) (by decide) (by decide) hB
    have hval : ex4EdgeSB.weight + (ex4EdgeBA.weight + (ex4EdgeAG.weight + 0)) =
        (5 : ℚ) := by decide
    exact hval ▸ hS
